import Mathlib

/-!
Verification of the turn-based game engine in libgame/src/lib.rs: the
generic GameState / GameAgent / GameRunner contracts, the GameRunner.play
loop, and the SimpleGame test fixture.

Modelling conventions: Rust trait methods become fields of a GameSpec
record parameterised by the State, Action and Outcome types; in-place
mutation (make_next on &mut self) becomes a pure transition function; a
method that can panic returns an Option, with none standing for the
panic. The while loop of play is run with explicit fuel, and every loop
iteration that applies an action is recorded as an Event so that
properties of the loop's control flow can be stated. usize is modelled
as Nat: no modelled run comes near 2^64, and the only field ever added
to (num) is not inspected by any claim that quantifies over all inputs
except through cur_player, which addition never touches.
-/

/-- The PlayerColor enum from lib.rs: Black or White. -/
inductive PlayerColor : Type where
  | Black : PlayerColor
  | White : PlayerColor
deriving DecidableEq, Repr, BEq

/-- The bundle of trait implementations a concrete game supplies: the
GameState trait methods (make_next, legal_actions, current_player_turn,
outcome) over state type σ, action type α, outcome type ω, plus the
GameOutcome trait method is_final. is_final returns an Option Bool, with
none modelling a panic (the test game implements it as todo!, which
panics when called). -/
structure GameSpec (σ α ω : Type) where
  make_next : σ → α → σ
  legal_actions : σ → List α
  current_player_turn : σ → PlayerColor
  outcome : σ → Option ω
  is_final : ω → Option Bool

/-- A GameAgent: shown a state and the legal actions, picks an action.
The result is an Option, with none modelling a panic inside pick_action
(for example an out-of-bounds index on the actions slice). -/
def Agent (σ α : Type) : Type := σ → List α → Option α

variable {σ α ω : Type}

/-- The agent selection performed at the top of the play loop: the match
on current_player_turn choosing black_agent or white_agent. -/
def agentFor (g : GameSpec σ α ω) (ba wa : Agent σ α) (s : σ) : Agent σ α :=
  match g.current_player_turn s with
  | PlayerColor.Black => ba
  | PlayerColor.White => wa

/-- The body of the default method GameState.next seen as an in-place
mutation: make_next on a mutable receiver, returning unit and the
updated receiver. -/
def GameSpec.make_next_mut (g : GameSpec σ α ω) (a : α) (s : σ) : Unit × σ :=
  ((), g.make_next s a)

/-- The default method GameState.next from lib.rs: clone the receiver,
call make_next on the clone, return the clone. The result pairs the
returned state with the receiver as it stands after the call, so that
the receiver being left unchanged is part of the modelled behaviour. -/
def GameSpec.next (g : GameSpec σ α ω) (s : σ) (a : α) : σ × σ :=
  let cloned := s
  let r := g.make_next_mut a cloned
  (r.2, s)

/-- One iteration of the play loop that applied an action, as observed
from outside: the color whose agent was selected, the state the agent
was shown, the legal-actions list it was given, and the action it
returned (which the runner then applied via make_next). -/
structure Event (σ α : Type) where
  color : PlayerColor
  state : σ
  legal : List α
  chosen : α
deriving DecidableEq, Repr

/-- How a fuel-bounded run of the play loop ended: the loop condition
became false (finished, with the final state and the number of loop
iterations executed), an agent panicked, or the fuel ran out before the
loop condition became false. -/
inductive PlayResult (σ : Type) where
  | finished : σ → Nat → PlayResult σ
  | panicked : PlayResult σ
  | outOfFuel : PlayResult σ
deriving DecidableEq, Repr

/-- Bump the iteration count of a finished run by one (used when
returning from one more executed loop iteration). -/
def PlayResult.tick : PlayResult σ → PlayResult σ
  | PlayResult.finished s n => PlayResult.finished s (n + 1)
  | PlayResult.panicked => PlayResult.panicked
  | PlayResult.outOfFuel => PlayResult.outOfFuel

/-- The while loop of GameRunner.play, run with explicit fuel. Each
iteration checks outcome(); if none, it selects the agent for
current_player_turn(), computes legal_actions(), asks the agent to
pick_action, and applies the chosen action with make_next — exactly the
five steps of the Rust loop body, in order. Alongside the result, the
list of Events records each iteration that applied an action. -/
def playAux (g : GameSpec σ α ω) (ba wa : Agent σ α) : Nat → σ → PlayResult σ × List (Event σ α)
  | 0, _ => (PlayResult.outOfFuel, [])
  | fuel + 1, s =>
    match g.outcome s with
    | some _ => (PlayResult.finished s 0, [])
    | none =>
      let color := g.current_player_turn s
      let active := agentFor g ba wa s
      let legal := g.legal_actions s
      match active s legal with
      | none => (PlayResult.panicked, [])
      | some a =>
        let rest := playAux g ba wa fuel (g.make_next s a)
        (rest.1.tick, Event.mk color s legal a :: rest.2)

/-- The GameRunner struct from lib.rs: one agent per color and the
evolving game state. The trait-object indirection (Box dyn GameAgent) is
modelled by the Agent function type. -/
structure GameRunner (σ α : Type) where
  black_agent : Agent σ α
  white_agent : Agent σ α
  game_state : σ

/-- GameRunner::new from lib.rs. -/
def GameRunner.new (ba wa : Agent σ α) (s : σ) : GameRunner σ α :=
  GameRunner.mk ba wa s

/-- GameRunner::play from lib.rs: consumes the runner, drives the loop,
and returns nothing — the run's result (final state, outcome) is
computed and then discarded. -/
def GameRunner.play (g : GameSpec σ α ω) (fuel : Nat) (r : GameRunner σ α) : Unit :=
  let _ := playAux g r.black_agent r.white_agent fuel r.game_state
  ()

/-! ## The SimpleGame test fixture from the tests module of lib.rs -/

/-- SimpleGameState: a counter and the player whose turn it is. -/
structure SimpleGameState where
  num : Nat
  cur_player : PlayerColor
deriving DecidableEq, Repr

/-- SimpleGameState::new: counter 0, Black to move. -/
def SimpleGameState.new : SimpleGameState :=
  SimpleGameState.mk 0 PlayerColor.Black

/-- SimpleGameAction: bump the counter by this amount. -/
structure SimpleGameAction where
  bump : Nat
deriving DecidableEq, Repr, BEq

/-- SimpleGameAction::new. -/
def SimpleGameAction.new (bump : Nat) : SimpleGameAction :=
  SimpleGameAction.mk bump

/-- SimpleGameOutcome: the three terminal results of the test game. -/
inductive SimpleGameOutcome : Type where
  | BlackWins : SimpleGameOutcome
  | WhiteWins : SimpleGameOutcome
  | BothLose : SimpleGameOutcome
deriving DecidableEq, Repr

/-- The GameState and GameOutcome impls for the test game, gathered into
a GameSpec: make_next adds the bump to num; legal_actions is always the
three bumps 2, 3, 4; current_player_turn reads cur_player; outcome is
none below 42, BothLose above 42, and at exactly 42 a win for whichever
color is to move; is_final is todo!, i.e. always a panic (none). -/
def simpleGame : GameSpec SimpleGameState SimpleGameAction SimpleGameOutcome where
  make_next := fun s a => SimpleGameState.mk (s.num + a.bump) s.cur_player
  legal_actions := fun _ =>
    [SimpleGameAction.new 2, SimpleGameAction.new 3, SimpleGameAction.new 4]
  current_player_turn := fun s => s.cur_player
  outcome := fun s =>
    if s.num < 42 then none
    else if s.num > 42 then some SimpleGameOutcome.BothLose
    else
      some (match s.cur_player with
        | PlayerColor.Black => SimpleGameOutcome.BlackWins
        | PlayerColor.White => SimpleGameOutcome.WhiteWins)
  is_final := fun _ => none

/-- SimpleAgent::pick_action: index 0 of the actions slice. Indexing
models the Rust panic on an empty slice as none. -/
def SimpleAgent.pick_action (s : σ) (actions : List α) : Option α :=
  let _ := s
  actions[0]?

/-- What one loop iteration of GameRunner.play must look like, stated
over an optional recorded Event and the optional Event that follows it:
the selected color is the state's current_player_turn, the offered list
is the state's legal_actions, the chosen action is exactly what the
matching agent returned on that state and list, the state was still
undecided, and the next recorded iteration (when there is one) starts
from make_next applied to this state and this chosen action. -/
def StepOk (g : GameSpec σ α ω) (ba wa : Agent σ α) :
    Option (Event σ α) → Option (Event σ α) → Prop
  | none, _ => True
  | some e, onext =>
      e.color = g.current_player_turn e.state ∧
      e.legal = g.legal_actions e.state ∧
      (match e.color with
       | PlayerColor.Black => ba e.state e.legal = some e.chosen
       | PlayerColor.White => wa e.state e.legal = some e.chosen) ∧
      g.outcome e.state = none ∧
      (match onext with
       | none => True
       | some e2 => e2.state = g.make_next e.state e.chosen)

/-- A concrete misbehaving agent for the test game: it always answers
with bump 100, an action that is never in the offered legal-actions
slice [2, 3, 4]. Used to exercise the runner's lack of a membership
check. -/
def rogueAgent : Agent SimpleGameState SimpleGameAction :=
  fun _ _ => some (SimpleGameAction.new 100)

/-! ## Helper lemmas about the play loop -/

/-- A run that finished within its fuel is unchanged by extra fuel. -/
lemma playAux_mono (g : GameSpec σ α ω) (ba wa : Agent σ α) :
    ∀ (fuel extra : Nat) (s t : σ) (n : Nat),
      (playAux g ba wa fuel s).1 = PlayResult.finished t n →
      playAux g ba wa (fuel + extra) s = playAux g ba wa fuel s := by
  intro fuel
  induction fuel with
  | zero =>
    intro extra s t n h
    simp [playAux] at h
  | succ fuel ih =>
    intro extra s t n h
    have hsum : fuel + 1 + extra = (fuel + extra) + 1 := by omega
    cases h0 : g.outcome s with
    | some o =>
      rw [hsum]
      simp [playAux, h0]
    | none =>
      cases h1 : agentFor g ba wa s s (g.legal_actions s) with
      | none =>
        simp [playAux, h0, h1, PlayResult.tick] at h
      | some a =>
        simp only [playAux, h0, h1] at h
        rw [hsum]
        simp only [playAux, h0, h1]
        cases h2 : (playAux g ba wa fuel (g.make_next s a)).1 with
        | finished t2 n2 =>
          rw [ih extra (g.make_next s a) t2 n2 h2, h2]
        | panicked =>
          rw [h2] at h
          simp [PlayResult.tick] at h
        | outOfFuel =>
          rw [h2] at h
          simp [PlayResult.tick] at h

/-- The first recorded iteration of a run starts from the run's start
state. -/
lemma playAux_trace_head_state (g : GameSpec σ α ω) (ba wa : Agent σ α)
    (fuel : Nat) (s : σ) (e : Event σ α)
    (h : (playAux g ba wa fuel s).2[0]? = some e) : e.state = s := by
  cases fuel with
  | zero => simp [playAux] at h
  | succ fuel =>
    cases h0 : g.outcome s with
    | some o => simp [playAux, h0] at h
    | none =>
      cases h1 : agentFor g ba wa s s (g.legal_actions s) with
      | none => simp [playAux, h0, h1] at h
      | some a =>
        simp [playAux, h0, h1] at h
        rw [← h]

/-- Every recorded iteration of a run satisfies StepOk with respect to
the iteration that follows it. -/
lemma playAux_stepOk (g : GameSpec σ α ω) (ba wa : Agent σ α) :
    ∀ (fuel : Nat) (s : σ) (i : Nat),
      StepOk g ba wa ((playAux g ba wa fuel s).2[i]?) ((playAux g ba wa fuel s).2[i + 1]?) := by
  intro fuel
  induction fuel with
  | zero =>
    intro s i
    simp [playAux, StepOk]
  | succ fuel ih =>
    intro s i
    cases h0 : g.outcome s with
    | some o => simp [playAux, h0, StepOk]
    | none =>
      cases h1 : agentFor g ba wa s s (g.legal_actions s) with
      | none => simp [playAux, h0, h1, StepOk]
      | some a =>
        simp only [playAux, h0, h1]
        cases i with
        | zero =>
          simp only [List.getElem?_cons_zero, List.getElem?_cons_succ, StepOk]
          refine ⟨trivial, trivial, ?_, h0, ?_⟩
          · cases hc : g.current_player_turn s with
            | Black =>
              have : agentFor g ba wa s = ba := by
                unfold agentFor
                rw [hc]
              rw [this] at h1
              simpa using h1
            | White =>
              have : agentFor g ba wa s = wa := by
                unfold agentFor
                rw [hc]
              rw [this] at h1
              simpa using h1
          · cases h2 : (playAux g ba wa fuel (g.make_next s a)).2[0]? with
            | none => trivial
            | some e2 => exact playAux_trace_head_state g ba wa fuel _ e2 h2
        | succ i =>
          simp only [List.getElem?_cons_succ]
          exact ih (g.make_next s a) i

/-- When a run finished, the recorded iteration count equals the number
of recorded events: one applied action per executed loop iteration. -/
lemma playAux_finished_iters (g : GameSpec σ α ω) (ba wa : Agent σ α) :
    ∀ (fuel : Nat) (s : σ),
      match (playAux g ba wa fuel s).1 with
      | PlayResult.finished _ n => n = (playAux g ba wa fuel s).2.length
      | _ => True := by
  intro fuel
  induction fuel with
  | zero =>
    intro s
    simp [playAux]
  | succ fuel ih =>
    intro s
    cases h0 : g.outcome s with
    | some o => simp [playAux, h0]
    | none =>
      cases h1 : agentFor g ba wa s s (g.legal_actions s) with
      | none => simp [playAux, h0, h1]
      | some a =>
        simp only [playAux, h0, h1]
        have ihs := ih (g.make_next s a)
        cases h2 : (playAux g ba wa fuel (g.make_next s a)).1 with
        | finished t2 n2 =>
          rw [h2] at ihs
          simp only [PlayResult.tick, List.length_cons]
          omega
        | panicked => simp [PlayResult.tick]
        | outOfFuel => simp [PlayResult.tick]

/-- The play loop reads only make_next, legal_actions,
current_player_turn and outcome: replacing is_final changes nothing. -/
lemma playAux_ignores_is_final (g : GameSpec σ α ω) (f : ω → Option Bool)
    (ba wa : Agent σ α) :
    ∀ (fuel : Nat) (s : σ),
      playAux { g with is_final := f } ba wa fuel s = playAux g ba wa fuel s := by
  intro fuel
  induction fuel with
  | zero => intro s; rfl
  | succ fuel ih =>
    intro s
    have e1 : ({ g with is_final := f } : GameSpec σ α ω).outcome = g.outcome := rfl
    have e2 : ({ g with is_final := f } : GameSpec σ α ω).legal_actions = g.legal_actions := rfl
    have e3 : agentFor { g with is_final := f } ba wa = agentFor g ba wa := rfl
    have e4 : ({ g with is_final := f } : GameSpec σ α ω).make_next = g.make_next := rfl
    have e5 : ({ g with is_final := f } : GameSpec σ α ω).current_player_turn
        = g.current_player_turn := rfl
    cases h0 : g.outcome s with
    | some o => simp [playAux, h0, e1]
    | none =>
      cases h1 : agentFor g ba wa s s (g.legal_actions s) with
      | none => simp [playAux, h0, h1, e1, e2, e3]
      | some a => simp [playAux, h0, h1, e1, e2, e3, e4, e5, ih]

/-- The test game's make_next leaves cur_player untouched. -/
lemma simple_make_next_cur_player (s : SimpleGameState) (a : SimpleGameAction) :
    (simpleGame.make_next s a).cur_player = s.cur_player := rfl

/-- On a state whose cur_player is Black, the play loop of the test game
selects the black agent. -/
lemma simple_agentFor_black (ba wa : Agent SimpleGameState SimpleGameAction)
    (s : SimpleGameState) (hs : s.cur_player = PlayerColor.Black) :
    agentFor simpleGame ba wa s = ba := by
  unfold agentFor
  have hc : simpleGame.current_player_turn s = PlayerColor.Black := hs
  rw [hc]

/-- Runs of the test game from a Black-to-move state do not depend on
the white agent at all. -/
lemma simple_play_white_irrelevant (ba wa wa' : Agent SimpleGameState SimpleGameAction) :
    ∀ (fuel : Nat) (s : SimpleGameState), s.cur_player = PlayerColor.Black →
      playAux simpleGame ba wa fuel s = playAux simpleGame ba wa' fuel s := by
  intro fuel
  induction fuel with
  | zero => intro s _; rfl
  | succ fuel ih =>
    intro s hs
    cases h0 : simpleGame.outcome s with
    | some o => simp [playAux, h0]
    | none =>
      have ha : agentFor simpleGame ba wa s = ba := simple_agentFor_black ba wa s hs
      have ha' : agentFor simpleGame ba wa' s = ba := simple_agentFor_black ba wa' s hs
      cases h1 : ba s (simpleGame.legal_actions s) with
      | none => simp [playAux, h0, ha, ha', h1]
      | some a =>
        have hnext : (simpleGame.make_next s a).cur_player = PlayerColor.Black := by
          rw [simple_make_next_cur_player, hs]
        simp [playAux, h0, ha, ha', h1, ih (simpleGame.make_next s a) hnext]

/-- In a run of the test game from a Black-to-move state, every
recorded iteration selected Black. -/
lemma simple_play_trace_black (ba wa : Agent SimpleGameState SimpleGameAction) :
    ∀ (fuel : Nat) (s : SimpleGameState), s.cur_player = PlayerColor.Black →
      ((playAux simpleGame ba wa fuel s).2.all
          (fun e => e.color == PlayerColor.Black)) = true := by
  intro fuel
  induction fuel with
  | zero => intro s _; simp [playAux]
  | succ fuel ih =>
    intro s hs
    cases h0 : simpleGame.outcome s with
    | some o => simp [playAux, h0]
    | none =>
      have ha : agentFor simpleGame ba wa s = ba := simple_agentFor_black ba wa s hs
      cases h1 : ba s (simpleGame.legal_actions s) with
      | none => simp [playAux, h0, ha, h1]
      | some a =>
        have hnext : (simpleGame.make_next s a).cur_player = PlayerColor.Black := by
          rw [simple_make_next_cur_player, hs]
        have hcur : simpleGame.current_player_turn s = PlayerColor.Black := hs
        simp [playAux, h0, ha, h1, hcur, ih (simpleGame.make_next s a) hnext]
        decide

/-- cur_player is invariant under any fold of make_next transitions of
the test game. -/
lemma simple_foldl_cur_player :
    ∀ (acts : List SimpleGameAction) (s : SimpleGameState),
      (List.foldl simpleGame.make_next s acts).cur_player = s.cur_player := by
  intro acts
  induction acts with
  | nil => intro s; rfl
  | cons a rest ih =>
    intro s
    rw [List.foldl_cons, ih (simpleGame.make_next s a), simple_make_next_cur_player]

/-- With first-element agents on both seats, the play loop cannot panic
as long as the game offers at least one legal action in every undecided
state. -/
lemma playAux_first_agent_no_panic (g : GameSpec σ α ω)
    (hne : ∀ t, g.outcome t = none → g.legal_actions t ≠ []) :
    ∀ (fuel : Nat) (s : σ),
      (playAux g SimpleAgent.pick_action SimpleAgent.pick_action fuel s).1
        ≠ PlayResult.panicked := by
  intro fuel
  induction fuel with
  | zero => intro s; simp [playAux]
  | succ fuel ih =>
    intro s
    cases h0 : g.outcome s with
    | some o => simp [playAux, h0]
    | none =>
      have hsame : agentFor g SimpleAgent.pick_action SimpleAgent.pick_action s
          = (SimpleAgent.pick_action : Agent σ α) := by
        unfold agentFor
        cases g.current_player_turn s <;> rfl
      cases hl : g.legal_actions s with
      | nil => exact absurd hl (hne s h0)
      | cons a rest =>
        have h1 : agentFor g SimpleAgent.pick_action SimpleAgent.pick_action s s
            (g.legal_actions s) = some a := by
          rw [hsame, hl]
          simp [SimpleAgent.pick_action]
        simp only [playAux, h0, h1]
        cases h2 : (playAux g SimpleAgent.pick_action SimpleAgent.pick_action fuel
            (g.make_next s a)).1 with
        | finished t2 n2 => simp [PlayResult.tick]
        | panicked => exact absurd h2 (ih (g.make_next s a))
        | outOfFuel => simp [PlayResult.tick]

/-! ## Claim theorems -/

/-- Claim C1: for the reference test game (SimpleGameState starting at
counter 0, both agents SimpleAgent picking the first listed action,
which bumps by 2), the play loop terminates — at fuel 22 and any larger
fuel it finishes — after exactly 21 executed loop iterations, on the
state with counter 42; that final state's turn is Black's, and its
outcome is the win for that color (BlackWins). -/
theorem simple_play_reference_run :
    (∀ extra : Nat,
        (playAux simpleGame SimpleAgent.pick_action SimpleAgent.pick_action
            (22 + extra) SimpleGameState.new).1
          = PlayResult.finished (SimpleGameState.mk 42 PlayerColor.Black) 21) ∧
    simpleGame.current_player_turn (SimpleGameState.mk 42 PlayerColor.Black)
      = PlayerColor.Black ∧
    simpleGame.outcome (SimpleGameState.mk 42 PlayerColor.Black)
      = some SimpleGameOutcome.BlackWins := by
  have h22 : (playAux simpleGame SimpleAgent.pick_action SimpleAgent.pick_action
      22 SimpleGameState.new).1
      = PlayResult.finished (SimpleGameState.mk 42 PlayerColor.Black) 21 := by decide
  refine ⟨?_, rfl, by decide⟩
  intro extra
  rw [playAux_mono simpleGame SimpleAgent.pick_action SimpleAgent.pick_action 22 extra
    SimpleGameState.new (SimpleGameState.mk 42 PlayerColor.Black) 21 h22]
  exact h22

/-- Claim C2: the default method next clones the receiver, applies make_next
to the clone and returns it, leaving the receiver unchanged: its result
component is make_next of the (cloned) receiver, and its receiver
component is the receiver exactly as it was. -/
theorem next_pure_equiv (g : GameSpec σ α ω) (s : σ) (a : α) :
    g.next s a = ((g.make_next_mut a s).2, s) ∧ g.next s a = (g.make_next s a, s) :=
  ⟨rfl, rfl⟩

/-- Claim C3: when the starting state is already terminal, one look at the
loop condition ends play: the run finishes with zero executed
iterations, an empty event list (no agent was asked for an action, no
legal_actions list was handed out) and the state returned untouched (no
make_next was applied). -/
theorem play_terminal_start_skips_agents (g : GameSpec σ α ω) (ba wa : Agent σ α)
    (fuel : Nat) (s : σ) (o : ω) (h : g.outcome s = some o) :
    playAux g ba wa (fuel + 1) s = (PlayResult.finished s 0, []) := by
  simp [playAux, h]

/-- Witness for C3: the test-game state with counter 42 is terminal and
play returns it immediately with an empty event list. -/
theorem play_terminal_start_skips_agents_witness :
    playAux simpleGame SimpleAgent.pick_action SimpleAgent.pick_action 1
        (SimpleGameState.mk 42 PlayerColor.Black)
      = (PlayResult.finished (SimpleGameState.mk 42 PlayerColor.Black) 0, []) :=
  play_terminal_start_skips_agents simpleGame SimpleAgent.pick_action
    SimpleAgent.pick_action 0 (SimpleGameState.mk 42 PlayerColor.Black)
    SimpleGameOutcome.BlackWins (by decide)

/-- Claim C4: the runner never applies an action to a decided state — every
recorded loop iteration (each of which ends in a make_next application)
was taken from a state whose outcome was none. -/
theorem play_applies_only_undecided (g : GameSpec σ α ω) (ba wa : Agent σ α) :
    ∀ (fuel : Nat) (s : σ),
      ((playAux g ba wa fuel s).2.all (fun e => (g.outcome e.state).isNone)) = true := by
  intro fuel
  induction fuel with
  | zero => intro s; simp [playAux]
  | succ fuel ih =>
    intro s
    cases h0 : g.outcome s with
    | some o => simp [playAux, h0]
    | none =>
      cases h1 : agentFor g ba wa s s (g.legal_actions s) with
      | none => simp [playAux, h0, h1]
      | some a => simp [playAux, h0, h1, ih (g.make_next s a)]

/-- Claim C5: every executed loop iteration follows the loop body exactly:
the recorded color is the state's current_player_turn; the offered list
is that state's legal_actions; the chosen action is precisely what the
black agent returned when that color is Black, and what the white agent
returned when it is White; the state was undecided; the next iteration
(when one exists) starts from make_next of this state and this action —
one applied action per iteration, so a finished run's iteration count
equals the number of recorded iterations. -/
theorem play_loop_protocol (g : GameSpec σ α ω) (ba wa : Agent σ α)
    (fuel : Nat) (s : σ) :
    (∀ i : Nat,
        StepOk g ba wa ((playAux g ba wa fuel s).2[i]?)
          ((playAux g ba wa fuel s).2[i + 1]?)) ∧
    (match (playAux g ba wa fuel s).1 with
     | PlayResult.finished _ n => n = (playAux g ba wa fuel s).2.length
     | _ => True) :=
  ⟨fun i => playAux_stepOk g ba wa fuel s i, playAux_finished_iters g ba wa fuel s⟩

/-- Claim C6: play consumes the runner and surfaces nothing: it computes the
run and returns the unit value, so neither the final state nor the
final outcome reaches the caller. -/
theorem play_discards_result (g : GameSpec σ α ω) (fuel : Nat) (r : GameRunner σ α) :
    GameRunner.play g fuel r = () :=
  rfl

/-- Claim C7: the runner never consults is_final: a run of the play loop is
unchanged when is_final is replaced by any function whatsoever — and on
the test game, whose is_final is todo! (modelled as none, a panic on
every call), the reference run still finishes on counter 42 after 21
iterations. -/
theorem play_never_calls_is_final :
    (∀ o : SimpleGameOutcome, simpleGame.is_final o = none) ∧
    ((playAux simpleGame SimpleAgent.pick_action SimpleAgent.pick_action 22
        SimpleGameState.new).1
      = PlayResult.finished (SimpleGameState.mk 42 PlayerColor.Black) 21) ∧
    (∀ (σ' α' ω' : Type) (g : GameSpec σ' α' ω') (f : ω' → Option Bool)
        (ba wa : Agent σ' α') (fuel : Nat) (s : σ'),
        playAux { g with is_final := f } ba wa fuel s = playAux g ba wa fuel s) :=
  ⟨fun _ => rfl, by decide,
    fun _ _ _ g f ba wa fuel s => playAux_ignores_is_final g f ba wa fuel s⟩

/-- Claim C8: the runner performs no membership check on the agent's choice:
whenever the selected agent answers with an action a — with no
assumption that a belongs to the offered legal_actions list — the loop
records that exact a and recurses on make_next applied to it. -/
theorem play_applies_choice_unchecked (g : GameSpec σ α ω) (ba wa : Agent σ α)
    (fuel : Nat) (s : σ) (a : α)
    (h1 : g.outcome s = none)
    (h2 : agentFor g ba wa s s (g.legal_actions s) = some a) :
    playAux g ba wa (fuel + 1) s
      = ((playAux g ba wa fuel (g.make_next s a)).1.tick,
         Event.mk (g.current_player_turn s) s (g.legal_actions s) a
           :: (playAux g ba wa fuel (g.make_next s a)).2) := by
  simp [playAux, h1, h2]

/-- Witness for C8: the rogue agent answers bump 100, which is not in
the offered slice [2, 3, 4], and the runner applies it unchanged. -/
theorem play_applies_choice_unchecked_witness :
    ((simpleGame.legal_actions SimpleGameState.new).contains
        (SimpleGameAction.new 100) = false) ∧
    playAux simpleGame rogueAgent rogueAgent (0 + 1) SimpleGameState.new
      = ((playAux simpleGame rogueAgent rogueAgent 0
            (simpleGame.make_next SimpleGameState.new (SimpleGameAction.new 100))).1.tick,
         Event.mk (simpleGame.current_player_turn SimpleGameState.new)
             SimpleGameState.new (simpleGame.legal_actions SimpleGameState.new)
             (SimpleGameAction.new 100)
           :: (playAux simpleGame rogueAgent rogueAgent 0
                (simpleGame.make_next SimpleGameState.new (SimpleGameAction.new 100))).2) :=
  ⟨by decide,
    play_applies_choice_unchecked simpleGame rogueAgent rogueAgent 0
      SimpleGameState.new (SimpleGameAction.new 100) (by decide) rfl⟩

/-- Claim C9: the test game's make_next touches only num (it adds the bump)
and leaves cur_player alone; hence every state reached from
SimpleGameState.new by any sequence of make_next applications still has
current_player_turn Black, a run of the test game from the start state
is entirely independent of the white agent, and every recorded
iteration of such a run selected Black — the white agent's pick_action
is never consulted. -/
theorem simple_make_next_frame :
    (∀ (s : SimpleGameState) (a : SimpleGameAction),
        (simpleGame.make_next s a).cur_player = s.cur_player ∧
        (simpleGame.make_next s a).num = s.num + a.bump) ∧
    (∀ acts : List SimpleGameAction,
        simpleGame.current_player_turn
            (List.foldl simpleGame.make_next SimpleGameState.new acts)
          = PlayerColor.Black) ∧
    (∀ (ba wa wa' : Agent SimpleGameState SimpleGameAction) (fuel : Nat),
        playAux simpleGame ba wa fuel SimpleGameState.new
          = playAux simpleGame ba wa' fuel SimpleGameState.new) ∧
    (∀ (ba wa : Agent SimpleGameState SimpleGameAction) (fuel : Nat),
        ((playAux simpleGame ba wa fuel SimpleGameState.new).2.all
            (fun e => e.color == PlayerColor.Black)) = true) := by
  refine ⟨fun s a => ⟨rfl, rfl⟩, ?_, ?_, ?_⟩
  · intro acts
    have h := simple_foldl_cur_player acts SimpleGameState.new
    exact h
  · intro ba wa wa' fuel
    exact simple_play_white_irrelevant ba wa wa' fuel SimpleGameState.new rfl
  · intro ba wa fuel
    exact simple_play_trace_black ba wa fuel SimpleGameState.new rfl

/-- Claim C10: SimpleAgent's pick_action on any non-empty actions slice
returns the slice's first element (in particular an element of the
slice, and the index access succeeds), on the empty slice it panics
(none), and with such agents on both seats a run can never end in a
panic provided legal_actions is non-empty on every undecided state. -/
theorem simple_agent_first_element :
    (∀ (σ' α' : Type) (s : σ') (a : α') (rest : List α'),
        SimpleAgent.pick_action s (a :: rest) = some a ∧ a ∈ a :: rest) ∧
    (∀ (σ' α' : Type) (s : σ'),
        SimpleAgent.pick_action s ([] : List α') = none) ∧
    (∀ (σ' α' ω' : Type) (g : GameSpec σ' α' ω'),
        (∀ t, g.outcome t = none → g.legal_actions t ≠ []) →
        ∀ (fuel : Nat) (s : σ'),
          (playAux g SimpleAgent.pick_action SimpleAgent.pick_action fuel s).1
            ≠ PlayResult.panicked) := by
  refine ⟨?_, ?_, ?_⟩
  · intro σ' α' s a rest
    exact ⟨by simp [SimpleAgent.pick_action], List.mem_cons_self a rest⟩
  · intro σ' α' s
    rfl
  · intro σ' α' ω' g hne fuel s
    exact playAux_first_agent_no_panic g hne fuel s

/-- Witness for C10: on the test game — whose legal_actions is always
the non-empty [2, 3, 4] — pick_action takes the first element, the
empty slice gives the panic value, and a run cannot end in a panic. -/
theorem simple_agent_first_element_witness :
    (SimpleAgent.pick_action SimpleGameState.new
        [SimpleGameAction.new 2, SimpleGameAction.new 3, SimpleGameAction.new 4]
      = some (SimpleGameAction.new 2)) ∧
    (SimpleGameAction.new 2
      ∈ [SimpleGameAction.new 2, SimpleGameAction.new 3, SimpleGameAction.new 4]) ∧
    (SimpleAgent.pick_action SimpleGameState.new ([] : List SimpleGameAction) = none) ∧
    (decide ((playAux simpleGame SimpleAgent.pick_action SimpleAgent.pick_action 5
          SimpleGameState.new).1 = PlayResult.panicked) = false) := by
  obtain ⟨hfst, hsnd, hthd⟩ := simple_agent_first_element
  obtain ⟨h1, h2⟩ := hfst SimpleGameState SimpleGameAction SimpleGameState.new
    (SimpleGameAction.new 2) [SimpleGameAction.new 3, SimpleGameAction.new 4]
  refine ⟨h1, h2, hsnd SimpleGameState SimpleGameAction SimpleGameState.new, ?_⟩
  exact decide_eq_false
    (hthd SimpleGameState SimpleGameAction SimpleGameOutcome simpleGame
      (fun t _ => List.cons_ne_nil _ _) 5 SimpleGameState.new)
